import Mathlib

/-!
Verification of the decision logic of an auto-listing search engine:
the ingest-time quality gate (`ingest_quality.py`), the query structuring
parser (`query_parser.py`) and the ranking engine (`search_service.py`).
Python strings are modelled as `List Char`, Python ints as `Nat`/`Int`,
floats as `ℚ`, dicts as association lists.  Regular-expression searches
from the source are embedded as explicit matching functions over
`List Char` with the same backtracking semantics.
-/

namespace AutoSearch

/-! ## Character classes (Python `str.lower`, `\s`, `\d`, `\w`, re.UNICODE)
over the ASCII and Cyrillic ranges the repository's texts use. -/

/-- Python `str.lower` for ASCII letters and the Russian alphabet
(`А`..`Я` → `а`..`я`, `Ё` → `ё`); identity elsewhere. -/
def pyLowerChar (c : Char) : Char :=
  if 65 ≤ c.toNat ∧ c.toNat ≤ 90 then Char.ofNat (c.toNat + 32)
  else if 1040 ≤ c.toNat ∧ c.toNat ≤ 1071 then Char.ofNat (c.toNat + 32)
  else if c.toNat = 1025 then Char.ofNat 1105
  else c

/-- Python regex `\s` (ASCII whitespace). -/
def isSpaceCh (c : Char) : Bool :=
  c.toNat = 32 ∨ c.toNat = 9 ∨ c.toNat = 10 ∨ c.toNat = 13 ∨ c.toNat = 11 ∨ c.toNat = 12

/-- Python regex `\d` (ASCII digits). -/
def isDigitCh (c : Char) : Bool :=
  48 ≤ c.toNat ∧ c.toNat ≤ 57

/-- Python regex `\w` under re.UNICODE, restricted to the ranges in play:
ASCII alphanumerics, underscore, and Cyrillic letters. -/
def isWordCh (c : Char) : Bool :=
  (48 ≤ c.toNat ∧ c.toNat ≤ 57) ∨ (65 ≤ c.toNat ∧ c.toNat ≤ 90) ∨
  (97 ≤ c.toNat ∧ c.toNat ≤ 122) ∨ c.toNat = 95 ∨
  (1040 ≤ c.toNat ∧ c.toNat ≤ 1103) ∨ c.toNat = 1025 ∨ c.toNat = 1105

/-- `\w` test on an optional character; `none` (start/end of text) is non-word. -/
def isWordO : Option Char → Bool
  | none => false
  | some c => isWordCh c

/-- A regex word boundary `\b` between characters `a` and `b`. -/
def bdy (a b : Option Char) : Bool := isWordO a != isWordO b

/-! ## List-of-char string primitives -/

/-- Is `p` a prefix of `s` (Boolean, character-for-character). -/
def isPrefB : List Char → List Char → Bool
  | [], _ => true
  | _ :: _, [] => false
  | a :: as, b :: bs => a == b && isPrefB as bs

/-- Python `needle in haystack` (substring containment). -/
def isSubB (needle : List Char) : List Char → Bool
  | [] => isPrefB needle []
  | c :: rest => isPrefB needle (c :: rest) || isSubB needle rest

/-- Python `str.strip()`: remove leading/trailing whitespace. -/
def pyStrip (s : List Char) : List Char :=
  ((s.dropWhile isSpaceCh).reverse.dropWhile isSpaceCh).reverse

/-- Collapse a run of `' '` characters left by `List.map` of whitespace. -/
def dedupSpaces : List Char → List Char
  | [] => []
  | [c] => [c]
  | c :: d :: rest =>
    if c == ' ' && d == ' ' then dedupSpaces (d :: rest)
    else c :: dedupSpaces (d :: rest)

/-- Python `re.sub(r"\s+", " ", t).strip()`. -/
def collapseWs (s : List Char) : List Char :=
  pyStrip (dedupSpaces (s.map (fun c => if isSpaceCh c then ' ' else c)))

/-- Try `f` at `n, n-1, …, 0` and return the first success (regex greedy
backtracking over a length). -/
def findFirstDesc {α : Type} : Nat → (Nat → Option α) → Option α
  | 0, f => f 0
  | n + 1, f =>
    match f (n + 1) with
    | some a => some a
    | none => findFirstDesc n f

/-- Scan all start positions (with the previous character available for `\b`)
and return the first position where `f` succeeds — `re.search` semantics. -/
def scanPrev {β : Type} (f : Option Char → List Char → Option β) :
    Option Char → List Char → Option β
  | prev, [] => f prev []
  | prev, c :: rest =>
    match f prev (c :: rest) with
    | some b => some b
    | none => scanPrev f (some c) rest

/-- Scan all start positions for a pattern that does not use `\b`. -/
def scanOpt {β : Type} (f : List Char → Option β) : List Char → Option β
  | [] => f []
  | c :: rest =>
    match f (c :: rest) with
    | some b => some b
    | none => scanOpt f rest

/-- Try each literal alternative in order as a prefix of `s`, feeding the
continuation; regex alternation with backtracking. -/
def tryAltsCont {α : Type} : List (List Char) → List Char →
    (Nat → List Char → Option α) → Option α
  | [], _, _ => none
  | a :: rest, s, k =>
    match (if isPrefB a s then k a.length (s.drop a.length) else none) with
    | some r => some r
    | none => tryAltsCont rest s k

/-- An optional alternation group `(a|b|…)?`: alternatives first (greedy),
then the empty match. -/
def tryOptAlts {α : Type} : List (List Char) → List Char →
    (List Char → Option α) → Option α
  | [], s, k => k s
  | a :: rest, s, k =>
    match (if isPrefB a s then k (s.drop a.length) else none) with
    | some r => some r
    | none => tryOptAlts rest s k

/-- Value of a nonempty digit string. -/
def natOfDigits (s : List Char) : Nat :=
  s.foldl (fun a c => a * 10 + (c.toNat - 48)) 0

/-! ## Noise-pattern matchers (`NOISE_PATTERNS` in `ingest_quality.py`)

Each matcher returns the length of the match of the corresponding regex at
the current position (given the previous character for `\b`), or `none`. -/

/-- `\S+\b` after `k` already-consumed literal characters: a maximal nonspace
run, backtracked to the longest end with a word boundary. -/
def tailNonSpaceBd (k : Nat) (s : List Char) : Option Nat :=
  let body := s.takeWhile (fun c => !isSpaceCh c)
  findFirstDesc body.length (fun j =>
    if j = 0 then none
    else
      let lastC := body.getD (j - 1) ' '
      let nextO : Option Char :=
        if j < body.length then some (body.getD j ' ') else (s.drop body.length).head?
      if bdy (some lastC) nextO then some (k + j) else none)

/-- `\bhttp(s)?://\S+\b`. -/
def urlMatch (prev : Option Char) (s : List Char) : Option Nat :=
  if isWordO prev then none
  else if isPrefB ['h', 't', 't', 'p', 's', ':', '/', '/'] s then
    tailNonSpaceBd 8 (s.drop 8)
  else if isPrefB ['h', 't', 't', 'p', ':', '/', '/'] s then
    tailNonSpaceBd 7 (s.drop 7)
  else none

/-- `\btelegram\.me/\S+\b`. -/
def tgMatch (prev : Option Char) (s : List Char) : Option Nat :=
  if isWordO prev then none
  else if isPrefB ("telegram.me/".data) s then tailNonSpaceBd 12 (s.drop 12)
  else none

/-- `\bt\.me/\S+\b`. -/
def tmeMatch (prev : Option Char) (s : List Char) : Option Nat :=
  if isWordO prev then none
  else if isPrefB ("t.me/".data) s then tailNonSpaceBd 5 (s.drop 5) else none

/-- `\b` after a word character: the next character must be non-word or end. -/
def bdAfterWord : List Char → Bool
  | [] => true
  | c :: _ => !isWordCh c

/-- `\bподпис(ывай|ыва)т(ь|есь)\b`. -/
def podpisMatch (prev : Option Char) (s : List Char) : Option Nat :=
  if isWordO prev then none
  else if isPrefB ("подпис".data) s then
    tryAltsCont [("ывай".data), ("ыва".data)] (s.drop 6) (fun k1 s1 =>
      if isPrefB ("т".data) s1 then
        tryAltsCont [("ь".data), ("есь".data)] (s1.drop 1) (fun k2 s2 =>
          if bdAfterWord s2 then some (6 + k1 + 1 + k2) else none)
      else none)
  else none

/-- `\bлайк\b|\bрепост\b|\bподел(ись|итесь)\b`. -/
def likeMatch (prev : Option Char) (s : List Char) : Option Nat :=
  if isWordO prev then none
  else if isPrefB ("лайк".data) s then
    if bdAfterWord (s.drop 4) then some 4 else none
  else if isPrefB ("репост".data) s then
    if bdAfterWord (s.drop 6) then some 6 else none
  else if isPrefB ("подел".data) s then
    tryAltsCont [("ись".data), ("итесь".data)] (s.drop 5) (fun k s1 =>
      if bdAfterWord s1 then some (5 + k) else none)
  else none

/-- `re.sub(pat, " ", t)`: replace every (leftmost, non-overlapping) match
with a single space.  `fuel` bounds the recursion by the text length. -/
def subMatches (f : Option Char → List Char → Option Nat) :
    Nat → Option Char → List Char → List Char
  | 0, _, s => s
  | _ + 1, _, [] => []
  | fuel + 1, prev, c :: rest =>
    match f prev (c :: rest) with
    | some (n + 1) =>
      ' ' :: subMatches f fuel (some (((c :: rest).take (n + 1)).getLastD c))
        ((c :: rest).drop (n + 1))
    | _ => c :: subMatches f fuel (some c) rest

/-- `normalize_text_for_rules`: lower-case, collapse whitespace, strip the
noise patterns (in list order), collapse again. -/
def normalizeRules (t : List Char) : List Char :=
  let t1 := collapseWs (t.map pyLowerChar)
  let t2 := subMatches urlMatch t1.length none t1
  let t3 := subMatches tgMatch t2.length none t2
  let t4 := subMatches tmeMatch t3.length none t3
  let t5 := subMatches podpisMatch t4.length none t4
  let t6 := subMatches likeMatch t5.length none t5
  collapseWs t6

/-! ## Sale-intent dictionaries and scoring (`ingest_quality.py`) -/

def POSITIVE_WORDS_RU : List String :=
  ["продам", "продаю", "продаётся", "продается", "продажа", "срочно продам",
   "торг", "обмен", "рассмотрю обмен"]

def POSITIVE_WORDS_EN : List String := ["for sale", "sale", "selling", "sell"]

def NEGATIVE_WORDS_RU : List String :=
  ["ищу", "куплю", "нужен", "подскажите", "помогите", "обсуждение", "вопрос",
   "что лучше", "ремонт", "не заводится", "ошибка", "диагностика"]

def NEGATIVE_WORDS_EN : List String := ["looking for", "help", "question", "repair"]

def DEFAULT_MIN_SALE_SCORE : Int := 2

def DEFAULT_MIN_TEXT_LEN : Nat := 80
def DEFAULT_MIN_PRICE_RUB : Nat := 150000
def DEFAULT_MAX_PRICE_RUB : Nat := 20000000
def DEFAULT_MIN_YEAR : Nat := 1995
def DEFAULT_MAX_MILEAGE_KM : Nat := 400000

def DEFAULT_BLACKLIST_WORDS : List String :=
  ["ищу", "куплю", "вопрос", "подскажите", "помогите", "что лучше", "ремонт",
   "диагностика", "ошибка", "проблема", "запчасти", "разбор"]

/-- Units of `PRICE_PATTERN`: `(руб|₽|р\.|\$|€|тыс|к|k)`. -/
def pricePatternUnits : List (List Char) :=
  [("руб".data), ("₽".data), ("р.".data), ("$".data), ("€".data),
   ("тыс".data), ("к".data), ("k".data)]

/-- Does one of the unit alternatives match as a prefix of `s`? -/
def unitHere (units : List (List Char)) (s : List Char) : Bool :=
  units.any (fun u => isPrefB u s)

/-- `PRICE_PATTERN` = `\b\d{3,}\b\s?(руб|₽|р\.|\$|€|тыс|к|k)` at one position:
a maximal digit run of length ≥ 3 starting at a word boundary, a word
boundary after it, an optional single whitespace, then a unit.  (Shorter
backtracked digit splits always fail the inner `\b`, so the maximal run
suffices.) -/
def pricePatternAt (prev : Option Char) (s : List Char) : Option Unit :=
  match s with
  | [] => none
  | c :: _ =>
    if !isDigitCh c then none
    else if isWordO prev then none
    else
      let ds := s.takeWhile isDigitCh
      if ds.length < 3 then none
      else
        match s.drop ds.length with
        | [] => none
        | r :: rs =>
          if isWordCh r then none
          else if unitHere pricePatternUnits (r :: rs) then some ()
          else if isSpaceCh r && unitHere pricePatternUnits rs then some ()
          else none

/-- `PRICE_PATTERN.search(text)` as a Boolean. -/
def pricePatternSearch (t : List Char) : Bool :=
  (scanPrev pricePatternAt none t).isSome

/-- `is_sale_intent(text, min_score)`: +2 per positive phrase contained in
the lowered text, +1 for a price-pattern hit, −2 per negative phrase,
then compare with the threshold.  Empty text is rejected outright. -/
def is_sale_intentL (t : List Char) (minScore : Int) : Bool :=
  if t = [] then false
  else
    let low := t.map pyLowerChar
    let s1 := (POSITIVE_WORDS_RU ++ POSITIVE_WORDS_EN).foldl
      (fun a w => if isSubB w.data low then a + 2 else a) (0 : Int)
    let s2 := if pricePatternSearch low then s1 + 1 else s1
    let s3 := (NEGATIVE_WORDS_RU ++ NEGATIVE_WORDS_EN).foldl
      (fun a w => if isSubB w.data low then a - 2 else a) s2
    decide (minScore ≤ s3)

def is_sale_intent (text : String) (minScore : Int) : Bool :=
  is_sale_intentL text.data minScore

/-! ## Number-with-unit patterns (`PRICE_ANY_PATTERN`, `MILEAGE_PATTERN`) -/

/-- First unit alternative matching as a prefix, in regex alternation order. -/
def pickUnit : List (List Char) → List Char → Option (List Char)
  | [], _ => none
  | u :: rest, s => if isPrefB u s then some u else pickUnit rest s

/-- `(\d+[\d\s]*)\s*(unit₁|unit₂|…)` at one position, with greedy
backtracking over the number group and the whitespace; returns
(number group, matched unit). -/
def numUnitAt (units : List (List Char)) (s : List Char) :
    Option (List Char × List Char) :=
  match s with
  | [] => none
  | c :: _ =>
    if !isDigitCh c then none
    else
      let reg := s.takeWhile (fun c => isDigitCh c || isSpaceCh c)
      findFirstDesc reg.length (fun j =>
        if j = 0 then none
        else
          let rest := s.drop j
          let sps := rest.takeWhile isSpaceCh
          findFirstDesc sps.length (fun k =>
            match pickUnit units (rest.drop k) with
            | some u => some (s.take j, u)
            | none => none))

/-- Units of `PRICE_ANY_PATTERN`, in alternation order. -/
def priceAnyUnits : List (List Char) :=
  [("млн".data), ("миллион".data), ("m".data), ("тыс".data), ("к".data),
   ("k".data), ("₽".data), ("руб".data), ("р.".data), ("$".data), ("€".data)]

/-- `PRICE_ANY_PATTERN` = `(до|<=|<)?\s*(\d+[\d\s]*)\s*(млн|…|€)` at one
position. -/
def priceAnyAt (s : List Char) : Option (List Char × List Char) :=
  tryOptAlts [("до".data), ("<=".data), ("<".data)] s (fun s1 =>
    numUnitAt priceAnyUnits (s1.dropWhile isSpaceCh))

/-- `YEAR_PATTERN` = `\b(19\d{2}|20\d{2})\b` at one position. -/
def yearAt (prev : Option Char) (s : List Char) : Option Nat :=
  match s with
  | a :: b :: c :: d :: rest =>
    if isWordO prev then none
    else if ((a == '1' && b == '9') || (a == '2' && b == '0')) &&
        isDigitCh c && isDigitCh d && bdAfterWord rest then
      some (natOfDigits [a, b, c, d])
    else none
  | _ => none

/-- `MILEAGE_PATTERN` = `(пробег)?\s*(до|<=|<)?\s*(\d+[\d\s]*)\s*(км|тыс)`
at one position. -/
def mileageAt (s : List Char) : Option (List Char × List Char) :=
  tryOptAlts [("пробег".data)] s (fun s1 =>
    tryOptAlts [("до".data), ("<=".data), ("<".data)] (s1.dropWhile isSpaceCh)
      (fun s2 => numUnitAt [("км".data), ("тыс".data)] (s2.dropWhile isSpaceCh)))

/-- Python `int(raw.replace(" ", ""))` for a regex number group: drop the
spaces and read the digits (`none` on a non-digit residue, mirroring the
`except`). -/
def intOfGroup (g : List Char) : Option Nat :=
  let raw := g.filter (fun c => !(c == ' '))
  if raw ≠ [] ∧ raw.all isDigitCh then some (natOfDigits raw) else none

/-- `parse_price_rub`: normalize, search `PRICE_ANY_PATTERN`, apply the
unit multiplier; foreign-currency units yield `none`. -/
def parse_price_rub (text : List Char) : Option Nat :=
  if text = [] then none
  else
    let t := normalizeRules text
    match scanOpt priceAnyAt t with
    | none => none
    | some (g, unit) =>
      match intOfGroup g with
      | none => none
      | some v =>
        if unit ∈ [("млн".data), ("миллион".data), ("m".data)] then
          some (v * 1000000)
        else if unit ∈ [("тыс".data), ("к".data), ("k".data)] then
          some (v * 1000)
        else if unit ∈ [("$".data), ("€".data)] then none
        else some v

/-- `parse_year`: normalize and search `YEAR_PATTERN`. -/
def parse_year (text : List Char) : Option Nat :=
  if text = [] then none
  else scanPrev yearAt none (normalizeRules text)

/-- `parse_mileage_km`: normalize, search `MILEAGE_PATTERN`, `тыс` → ×1000. -/
def parse_mileage_km (text : List Char) : Option Nat :=
  if text = [] then none
  else
    match scanOpt mileageAt (normalizeRules text) with
    | none => none
    | some (g, unit) =>
      match intOfGroup g with
      | none => none
      | some v => if unit = ("тыс".data) then some (v * 1000) else some v

/-! ## Quality signals, min/max rules, blacklist, gate (`ingest_quality.py`) -/

structure QualitySignals where
  price_rub : Option Nat
  year : Option Nat
  mileage_km : Option Nat
  has_price : Bool
  has_year : Bool
  has_mileage : Bool
deriving DecidableEq, Repr

/-- `extract_quality_signals`. -/
def extract_quality_signals (text : List Char) : QualitySignals :=
  let price := parse_price_rub text
  let year := parse_year text
  let mileage := parse_mileage_km text
  { price_rub := price, year := year, mileage_km := mileage,
    has_price := price.isSome, has_year := year.isSome,
    has_mileage := mileage.isSome }

/-- `passes_min_max_rules`: length floor, then price/year/mileage range
checks, each returning its own reason code. -/
def passes_min_max_rules (text : List Char) (minTextLen : Nat)
    (minPriceRub : Nat) (maxPriceRub : Nat) (minYear : Nat)
    (maxMileageKm : Nat) : Bool × String :=
  if text = [] ∨ (pyStrip text).length < minTextLen then (false, "text_too_short")
  else
    let signals := extract_quality_signals text
    match signals.price_rub with
    | some p =>
      if p < minPriceRub then (false, "price_too_low")
      else if maxPriceRub < p then (false, "price_too_high")
      else
        match signals.year with
        | some y =>
          if y < minYear then (false, "year_too_old")
          else
            match signals.mileage_km with
            | some m => if maxMileageKm < m then (false, "mileage_too_high")
                        else (true, "ok")
            | none => (true, "ok")
        | none =>
          match signals.mileage_km with
          | some m => if maxMileageKm < m then (false, "mileage_too_high")
                      else (true, "ok")
          | none => (true, "ok")
    | none =>
      match signals.year with
      | some y =>
        if y < minYear then (false, "year_too_old")
        else
          match signals.mileage_km with
          | some m => if maxMileageKm < m then (false, "mileage_too_high")
                      else (true, "ok")
          | none => (true, "ok")
      | none =>
        match signals.mileage_km with
        | some m => if maxMileageKm < m then (false, "mileage_too_high")
                    else (true, "ok")
        | none => (true, "ok")

/-- `has_blacklist_words`: empty text counts as noise; otherwise normalize
and look for any nonempty blacklist word (default list when the caller
passes `None` or an empty list). -/
def has_blacklist_words (text : List Char) (blacklist : Option (List String)) :
    Bool :=
  if text = [] then true
  else
    let bl := match blacklist with
      | none => DEFAULT_BLACKLIST_WORDS
      | some l => if l = [] then DEFAULT_BLACKLIST_WORDS else l
    let t := normalizeRules text
    bl.any (fun w => w.data ≠ [] && isSubB (w.data.map pyLowerChar) t)

/-- `has_any_required_signals`. -/
def has_any_required_signals (text : List Char) : Bool :=
  let s := extract_quality_signals text
  s.has_price || s.has_year || s.has_mileage

/-- Values stored in the gate's `meta` dictionary. -/
inductive MetaVal where
  | s (v : String)
  | i (v : Int)
  | b (v : Bool)
deriving DecidableEq, Repr

/-- `should_skip_doc(text=…, source=…, min_sale_score=…, blacklist=…)`:
returns `(skip, meta)` with `meta` as an insertion-ordered association
list.  The `except` branch of the source is unreachable in this total
embedding. -/
def should_skip_doc (text : String) (source : String) (minSaleScore : Int)
    (blacklist : Option (List String)) :
    Bool × List (String × MetaVal) :=
  let tc := text.data
  if tc = [] then (true, [("reason", MetaVal.s "empty_text")])
  else
    let norm := normalizeRules tc
    let meta0 : List (String × MetaVal) :=
      [("source", MetaVal.s source), ("text_len", MetaVal.i norm.length)]
    if has_blacklist_words norm blacklist then
      (true, meta0 ++ [("reason", MetaVal.s "blacklist_word")])
    else
      let mm := passes_min_max_rules norm DEFAULT_MIN_TEXT_LEN
        DEFAULT_MIN_PRICE_RUB DEFAULT_MAX_PRICE_RUB DEFAULT_MIN_YEAR
        DEFAULT_MAX_MILEAGE_KM
      if !mm.1 then (true, meta0 ++ [("reason", MetaVal.s mm.2)])
      else
        let sale := is_sale_intentL norm minSaleScore
        let meta1 := meta0 ++ [("sale_intent", MetaVal.b sale)]
        if !sale then
          if !has_any_required_signals norm then
            (true, meta1 ++ [("reason", MetaVal.s "not_sale_and_no_signals")])
          else
            (false, meta1 ++ [("reason", MetaVal.s "weak_sale_but_has_signals")])
        else (false, meta1 ++ [("reason", MetaVal.s "ok")])

/-- `should_skip_doc` at its default keyword arguments
(`min_sale_score=DEFAULT_MIN_SALE_SCORE`, `blacklist=None`). -/
def should_skip_docD (text : String) (source : String) :
    Bool × List (String × MetaVal) :=
  should_skip_doc text source DEFAULT_MIN_SALE_SCORE none

/-- The `reason` entry of a gate decision's meta. -/
def reasonOf (d : Bool × List (String × MetaVal)) : Option MetaVal :=
  d.2.lookup "reason"

/-! ## Brand detection (`detect_brand` in `ingest_quality.py`) -/

structure BrandCfg where
  en : List String := []
  ru : List String := []
  aliases : List String := []
deriving DecidableEq, Repr

abbrev Catalog := List (String × BrandCfg)

/-- `detect_brand`: first brand whose exact token (en, then ru) is contained
in the lowered text → confidence 1.0; alias containment → 0.7. -/
def detect_brandL (cat : Catalog) (low : List Char) : Option String × ℚ :=
  match cat with
  | [] => (none, 0)
  | (key, cfg) :: rest =>
    if cfg.en.any (fun v => isSubB (v.data.map pyLowerChar) low) then (some key, 1)
    else if cfg.ru.any (fun v => isSubB (v.data.map pyLowerChar) low) then (some key, 1)
    else if cfg.aliases.any (fun v => isSubB (v.data.map pyLowerChar) low) then
      (some key, 7/10)
    else detect_brandL rest low

def detect_brand (cat : Catalog) (text : String) : Option String × ℚ :=
  if text.data = [] then (none, 0)
  else detect_brandL cat (text.data.map pyLowerChar)

/-! ## Query structuring parser (`query_parser.py`) -/

structure StructuredQuery where
  raw_query : Option String := none
  brand : Option String := none
  brand_confidence : ℚ := 0
  model : Option String := none
  price_max : Option Nat := none
  mileage_max : Option Nat := none
  fuel : Option String := none
  paint_condition : Option String := none
  city : Option String := none
  keywords : List String := []
  exclusions : List String := []
deriving DecidableEq, Repr

/-- `re.search(rf"\b{re.escape(w)}\b", text)`: the literal `w` with a word
boundary on each side. -/
def bdMatchAt (w : List Char) (prev : Option Char) (s : List Char) : Bool :=
  match w with
  | [] => bdy prev s.head?
  | c :: _ =>
    isPrefB w s && bdy prev (some c) && bdy (some (w.getLastD c)) (s.drop w.length).head?

/-- Word-bounded search of a literal over the whole text. -/
def bdSearch (w : List Char) (t : List Char) : Bool :=
  (scanPrev (fun prev s => if bdMatchAt w prev s then some () else none) none t).isSome

/-- `_extract_brand`: per brand, word-bounded exact (en ++ ru) → 1.0,
word-bounded alias → 0.8, plain substring of an exact token → 0.6. -/
def extract_brandL (cat : Catalog) (text : List Char) : Option String × ℚ :=
  match cat with
  | [] => (none, 0)
  | (key, cfg) :: rest =>
    if (cfg.en ++ cfg.ru).any (fun w => bdSearch (w.data.map pyLowerChar) text) then
      (some key, 1)
    else if cfg.aliases.any (fun a => bdSearch (a.data.map pyLowerChar) text) then
      (some key, 4/5)
    else if (cfg.en ++ cfg.ru).any (fun w => isSubB (w.data.map pyLowerChar) text) then
      (some key, 3/5)
    else extract_brandL rest text

/-- Price patterns of `_parse_with_fallback`, searched in order; each is
`(до|<=|<)?\s*(\d+[\d\s]*)\s*(units)` with its own unit set. -/
def parserPricePattern (units : List (List Char)) (t : List Char) :
    Option (List Char × List Char) :=
  scanOpt (fun s =>
    tryOptAlts [("до".data), ("<=".data), ("<".data)] s (fun s1 =>
      numUnitAt units (s1.dropWhile isSpaceCh))) t

/-- The `price_patterns` loop with its unit multipliers. -/
def parserPriceMax (t : List Char) : Option Nat :=
  let p1 := parserPricePattern [("млн".data), ("миллион".data), ("m".data)] t
  let p2 := parserPricePattern [("тыс".data), ("к".data)] t
  let p3 := parserPricePattern
    [("₽".data), ("руб".data), ("р.".data), ("$".data), ("€".data)] t
  let pm := match p1 with
    | some r => some r
    | none =>
      match p2 with
      | some r => some r
      | none => p3
  match pm with
  | none => none
  | some (g, unit) =>
    match intOfGroup g with
    | none => none
    | some v =>
      if unit ∈ [("млн".data), ("миллион".data), ("m".data)] then some (v * 1000000)
      else if unit ∈ [("тыс".data), ("к".data)] then some (v * 1000)
      else some v

/-- `re.search(r"до\s*(\d+[\d\s]*)\s*(км|тыс)", text)` with the `тыс`
multiplier. -/
def parserMileageMax (t : List Char) : Option Nat :=
  match scanOpt (fun s =>
      if isPrefB ("до".data) s then
        numUnitAt [("км".data), ("тыс".data)] ((s.drop 2).dropWhile isSpaceCh)
      else none) t with
  | none => none
  | some (g, unit) =>
    match intOfGroup g with
    | none => none
    | some v => if unit = ("тыс".data) then some (v * 1000) else some v

def parserCities : List (List Char) :=
  [("москва".data), ("спб".data), ("питер".data), ("екатеринбург".data),
   ("казань".data), ("новосибирск".data), ("алматы".data), ("астана".data)]

/-- `re.search(r"\b(москва|спб|…)\b", text)`: leftmost position, alternation
order at each position. -/
def parserCity (t : List Char) : Option (List Char) :=
  scanPrev (fun prev s =>
    parserCities.foldr (fun c acc =>
      if bdMatchAt c prev s then some c else acc) none) none t

/-- Characters of the token pattern `[a-zа-я0-9]+` (note: no `ё`). -/
def isTokCh (c : Char) : Bool :=
  (97 ≤ c.toNat ∧ c.toNat ≤ 122) ∨ (1072 ≤ c.toNat ∧ c.toNat ≤ 1103) ∨
  (48 ≤ c.toNat ∧ c.toNat ≤ 57)

/-- `re.findall(r"[a-zа-я0-9]+", text)`: maximal token-character runs. -/
def tokenizeAux : Nat → List Char → List (List Char)
  | 0, _ => []
  | _ + 1, [] => []
  | fuel + 1, c :: rest =>
    if isTokCh c then
      let run := rest.takeWhile isTokCh
      (c :: run) :: tokenizeAux fuel (rest.drop run.length)
    else tokenizeAux fuel rest

def tokenize (t : List Char) : List (List Char) :=
  tokenizeAux t.length t

def STOP_TOKENS : List String :=
  ["до", "без", "и", "или", "не", "бит", "крашен", "км", "тыс", "руб", "р", "₽"]

/-- The recency-intent keywords seeded before the token loop. -/
def recencyInit (text : List Char) : List String :=
  if [("свеж".data), ("нов".data), ("последн".data)].any
      (fun w => isSubB w text) then ["recent"] else []

/-- The keyword/exclusion loop: a token starting with `не` (and longer than
2) goes to exclusions with `t[1:]` (one character dropped); otherwise a
non-stop token not already among the keywords is appended. -/
def kwExLoop : List (List Char) → List String → List String →
    List String × List String
  | [], kw, ex => (kw, ex)
  | t :: rest, kw, ex =>
    if isPrefB ("не".data) t && decide (2 < t.length) then
      kwExLoop rest kw (ex ++ [String.mk (t.drop 1)])
    else if ¬ (String.mk t) ∈ STOP_TOKENS ∧ ¬ (String.mk t) ∈ kw then
      kwExLoop rest (kw ++ [String.mk t]) ex
    else kwExLoop rest kw ex

/-- `_parse_with_fallback`. -/
def parse_with_fallback (cat : Catalog) (raw : String) : StructuredQuery :=
  let text := raw.data.map pyLowerChar
  let br := extract_brandL cat text
  let q0 : StructuredQuery := { raw_query := some raw }
  let q1 := match br.1 with
    | some b => if b ≠ "" then { q0 with brand := some b, brand_confidence := br.2 }
                else q0
    | none => q0
  let q2 := { q1 with price_max := parserPriceMax text }
  let q3 := { q2 with mileage_max := parserMileageMax text }
  let fuelVal : Option String :=
    if isSubB ("бенз".data) text then some "petrol"
    else if isSubB ("диз".data) text then some "diesel"
    else if isSubB ("гибрид".data) text then some "hybrid"
    else if isSubB ("электро".data) text || isSubB ("электр".data) text then
      some "electric"
    else none
  let q4 := { q3 with fuel := fuelVal }
  let paintVal : Option String :=
    if isSubB ("без окрас".data) text || isSubB ("не бит".data) text ||
        isSubB ("родная краска".data) text then some "original"
    else if isSubB ("крашен".data) text || isSubB ("бит".data) text then
      some "repainted"
    else none
  let q5 := { q4 with paint_condition := paintVal }
  let q6 := { q5 with city := (parserCity text).map String.mk }
  let ke := kwExLoop (tokenize text) (recencyInit text) []
  { q6 with keywords := ke.1, exclusions := ke.2 }

/-- `parse_query`: strip the input; empty → an all-null query carrying the
stripped text; otherwise the LLM placeholder always raises and the
rule-based fallback runs on the stripped text. -/
def parse_query (cat : Catalog) (raw : String) : StructuredQuery :=
  let rt : String := String.mk (pyStrip raw.data)
  if rt = "" then { raw_query := some rt } else parse_with_fallback cat rt

/-! ## Ranking engine (`search_service.py`)

I/O (vector store, history persistence, reason-string formatting) is out
of scope; the candidate-processing loop and the scoring arithmetic are
embedded exactly, with floats as `ℚ`, the qdrant payload as a record of
optional fields, and `datetime`/`urlparse` library calls as parameters
(`now`, `isoDays`) or a structural model (`netlocOf`). -/

def MAX_RESULTS_PER_SOURCE : Nat := 3
def DOMAIN_PENALTY_K : ℚ := 2/5
def RECENCY_MAX_DAYS : ℚ := 180
def RECENCY_WEIGHT : ℚ := 1

/-- `SOURCE_BOOSTS.get(source, 1.0)`. -/
def sourceBoostOf (s : String) : ℚ :=
  if s = "benzclub.ru" then 3/2
  else if s = "bmwclub.ru" then 3/2
  else if s = "forum" then 3/2
  else if s = "telegram" then 1
  else if s = "auto.ru" then 4/5
  else if s = "drom.ru" then 4/5
  else if s = "avito.ru" then 4/5
  else if s = "marketplace" then 4/5
  else 1

/-- A qdrant payload: a loosely-typed mapping with every field optional.
`sale_intent` holds the `str()` rendering compared against `"1"`. -/
structure Payload where
  url : Option String := none
  source : Option String := none
  brand : Option String := none
  model : Option String := none
  year : Option Int := none
  mileage : Option Int := none
  price : Option Int := none
  currency : Option String := none
  fuel : Option String := none
  region : Option String := none
  paint_condition : Option String := none
  sale_intent : Option String := none
  created_at_ts : Option Int := none
  created_at : Option String := none
deriving DecidableEq, Repr

/-- Machine-readable stand-ins for the `reasons` strings of `_score_hit`
(the numeric pretty-printing of the f-strings is not modelled). -/
inductive Reason where
  | semantic (q : ℚ)
  | source_boost (q : ℚ)
  | brand_whitelisted
  | brand_outside_whitelist
  | sale_intent_true
  | sale_intent_false
  | price_match
  | mileage_match
  | recency_boost (q : ℚ)
  | recency_fallback
  | recency_invalid
  | recency_missing
  | diversity_penalty
  | domain_penalty
deriving DecidableEq, Repr

/-- `source_boost` of `_score_hit`. -/
def scoreSourceBoost (p : Payload) : ℚ := sourceBoostOf (p.source.getD "")

/-- `payload_brand and payload_brand.lower() in WHITELIST_SET`. -/
def scoreBrandWhite (whitelist : List String) (p : Payload) : Bool :=
  match p.brand with
  | some b => b ≠ "" && (String.mk (b.data.map pyLowerChar)) ∈ whitelist
  | none => false

/-- `brand_boost` of `_score_hit`. -/
def scoreBrandBoost (whitelist : List String) (p : Payload) : ℚ :=
  if scoreBrandWhite whitelist p then 23/20 else 9/10

/-- `str(payload.get("sale_intent")) == "1"`. -/
def scoreSaleFlag (p : Payload) : Bool := (p.sale_intent.getD "None") = "1"

/-- `sale_boost` of `_score_hit`. -/
def scoreSaleBoost (p : Payload) : ℚ :=
  if scoreSaleFlag p then 11/10 else 17/20

/-- The guard `structured.price_max and payload.get("price")` with the two
truthy operands. -/
def scorePriceCase (structured : StructuredQuery) (p : Payload) :
    Option (Nat × Int) :=
  match structured.price_max, p.price with
  | some pm, some pr => if pm ≠ 0 ∧ pr ≠ 0 then some (pm, pr) else none
  | _, _ => none

/-- `price_score` of `_score_hit`. -/
def scorePriceScore (structured : StructuredQuery) (p : Payload) : ℚ :=
  match scorePriceCase structured p with
  | some (pm, pr) => max 0 (1 - |(pm : ℚ) - (pr : ℚ)| / (pm : ℚ))
  | none => 0

/-- The guard `structured.mileage_max and payload.get("mileage")`. -/
def scoreMileageCase (structured : StructuredQuery) (p : Payload) :
    Option (Nat × Int) :=
  match structured.mileage_max, p.mileage with
  | some mm, some mi => if mm ≠ 0 ∧ mi ≠ 0 then some (mm, mi) else none
  | _, _ => none

/-- `mileage_score` of `_score_hit`. -/
def scoreMileageScore (structured : StructuredQuery) (p : Payload) : ℚ :=
  match scoreMileageCase structured p with
  | some (mm, mi) => max 0 (1 - |(mm : ℚ) - (mi : ℚ)| / (mm : ℚ))
  | none => 0

/-- `recency_score` of `_score_hit` with its reason token.  `isoDays`
models the `(datetime.utcnow() - datetime.fromisoformat(s)).days` library
call (`none` = the `except` branch); `now` is the current Unix
timestamp. -/
def scoreRecency (isoDays : String → Option Int) (now : Int) (p : Payload) :
    ℚ × Reason :=
  match p.created_at_ts with
  | some ts =>
    let age_days : ℚ := max 0 ((now - ts : ℚ) / 86400)
    let decay : ℚ := max 0 (1 - age_days / RECENCY_MAX_DAYS)
    let rs := decay * RECENCY_WEIGHT
    (rs, Reason.recency_boost rs)
  | none =>
    match p.created_at with
    | some ca =>
      if ca = "" then (0, Reason.recency_missing)
      else
        match isoDays ca with
        | some days_old =>
          (max 0 (1 - (days_old : ℚ) / RECENCY_MAX_DAYS),
           Reason.recency_fallback)
        | none => (0, Reason.recency_invalid)
    | none => (0, Reason.recency_missing)

/-- `diversity_penalty` of `_score_hit`. -/
def scoreDiversityPenalty (source_rank : Nat) : ℚ :=
  1 / (1 + (source_rank : ℚ) * (1/2))

/-- `domain_penalty` of `_score_hit`. -/
def scoreDomainPenalty (domain_rank : Nat) : ℚ :=
  1 / (1 + (domain_rank : ℚ) * DOMAIN_PENALTY_K)

/-- `SearchService._score_hit`: the per-candidate score and its reason
tokens, assembled from the blocks above in source order. -/
def score_hit (whitelist : List String) (isoDays : String → Option Int)
    (now : Int) (vector_score : ℚ) (p : Payload) (structured : StructuredQuery)
    (source_rank : Nat) (domain_rank : Nat) : ℚ × List Reason :=
  let semantic_score := vector_score
  let r1 : List Reason := [Reason.semantic semantic_score]
  let source_boost := scoreSourceBoost p
  let r2 := if source_boost ≠ 1 then r1 ++ [Reason.source_boost source_boost] else r1
  let brand_boost := scoreBrandBoost whitelist p
  let r3 := r2 ++ [if scoreBrandWhite whitelist p then Reason.brand_whitelisted
                   else Reason.brand_outside_whitelist]
  let sale_boost := scoreSaleBoost p
  let r4 := r3 ++ [if scoreSaleFlag p then Reason.sale_intent_true
                   else Reason.sale_intent_false]
  let price_score := scorePriceScore structured p
  let r5 := match scorePriceCase structured p with
    | some _ => r4 ++ [Reason.price_match]
    | none => r4
  let mileage_score := scoreMileageScore structured p
  let r6 := match scoreMileageCase structured p with
    | some _ => r5 ++ [Reason.mileage_match]
    | none => r5
  let recency_score := (scoreRecency isoDays now p).1
  let r7 := r6 ++ [(scoreRecency isoDays now p).2]
  let diversity_penalty := scoreDiversityPenalty source_rank
  let r8 := if 0 < source_rank then r7 ++ [Reason.diversity_penalty] else r7
  let domain_penalty := scoreDomainPenalty domain_rank
  let r9 := if 0 < domain_rank then r8 ++ [Reason.domain_penalty] else r8
  let final_score :=
    (semantic_score + price_score + mileage_score + recency_score)
      * source_boost * brand_boost * sale_boost * diversity_penalty
      * domain_penalty
  (final_score, r9)

/-- Scheme characters of `urllib.parse` (letters, digits, `+`, `-`, `.`). -/
def isSchemeCh (c : Char) : Bool :=
  (97 ≤ c.toNat ∧ c.toNat ≤ 122) ∨ (65 ≤ c.toNat ∧ c.toNat ≤ 90) ∨
  (48 ≤ c.toNat ∧ c.toNat ≤ 57) ∨ c == '+' ∨ c == '-' ∨ c == '.'

/-- `urlparse(url).netloc`: strip a valid `scheme:` prefix, then, if the
rest starts with `//`, the characters up to the next `/`, `?` or `#`. -/
def netlocOf (u : List Char) : Option (List Char) :=
  let pre := u.takeWhile (fun c => !(c == ':'))
  let headAlpha : Bool := match pre with
    | c :: _ => (97 ≤ c.toNat ∧ c.toNat ≤ 122) ∨ (65 ≤ c.toNat ∧ c.toNat ≤ 90)
    | [] => false
  let rest :=
    if pre.length < u.length ∧ headAlpha ∧ pre.all isSchemeCh then
      u.drop (pre.length + 1)
    else u
  if isPrefB ['/', '/'] rest then
    some ((rest.drop 2).takeWhile
      (fun c => !(c == '/') && !(c == '?') && !(c == '#')))
  else none

/-- The `domain` computed in the search loop (`"unknown"` when `urlparse`
yields no netloc). -/
def domainOf (u : String) : String :=
  match netlocOf u.data with
  | some d => if d ≠ [] then String.mk (d.map pyLowerChar) else "unknown"
  | none => "unknown"

/-- One vector-store hit. -/
structure Hit where
  score : ℚ
  payload : Payload
deriving DecidableEq, Repr

/-- One entry of the returned results list. -/
structure RankedResult where
  brand : Option String
  model : Option String
  year : Option Int
  mileage : Option Int
  price : Option Int
  currency : String
  fuel : Option String
  region : Option String
  paint_condition : Option String
  score : ℚ
  why_match : List Reason
  source_url : String
  source_name : String
deriving DecidableEq, Repr

/-- Python `round(x, 4)` on exact rationals: half-to-even at the 4th
decimal. -/
def roundHalfEven (q : ℚ) : ℤ :=
  let f := ⌊q⌋
  let r := q - (f : ℚ)
  if r < 1/2 then f
  else if 1/2 < r then f + 1
  else if f % 2 = 0 then f else f + 1

def pyRound4 (q : ℚ) : ℚ := (roundHalfEven (q * 10000) : ℚ) / 10000

/-- Counter maps (`source_counter`, `domain_counter`) as association
lists. -/
def cntGet (m : List (String × Nat)) (k : String) : Nat :=
  (m.lookup k).getD 0

def cntInc : List (String × Nat) → String → List (String × Nat)
  | [], k => [(k, 1)]
  | (a, n) :: rest, k =>
    if a = k then (a, n + 1) :: rest else (a, n) :: cntInc rest k

/-- `payload.get("source") or "unknown"`. -/
def sourceNameOf (p : Payload) : String :=
  match p.source with
  | some s => if s = "" then "unknown" else s
  | none => "unknown"

/-- `not source_url or source_url in seen_urls`: a missing or empty URL,
or one already emitted. -/
def urlSkip (o : Option String) (seen : List String) : Bool :=
  match o with
  | none => true
  | some u => u = "" ∨ u ∈ seen

/-- The result dictionary appended by the search loop (display fields from
the payload, rounded score, reasons, URL and source name). -/
def mkRanked (p : Payload) (u sname : String) (scored : ℚ × List Reason) :
    RankedResult :=
  { brand := p.brand, model := p.model, year := p.year, mileage := p.mileage,
    price := p.price, currency := p.currency.getD "RUB", fuel := p.fuel,
    region := p.region, paint_condition := p.paint_condition,
    score := pyRound4 scored.1, why_match := scored.2,
    source_url := u, source_name := sname }

/-- The candidate-processing loop of `SearchService.search`: URL dedup,
per-source hard cap, scoring, append, `break` at `limit`. -/
def searchLoop (whitelist : List String) (isoDays : String → Option Int)
    (now : Int) (structured : StructuredQuery) (limit : Nat) :
    List Hit → List RankedResult → List String → List (String × Nat) →
    List (String × Nat) → List RankedResult
  | [], res, _, _, _ => res
  | h :: rest, res, seen, sc, dc =>
    let p := h.payload
    if urlSkip p.url seen then
      searchLoop whitelist isoDays now structured limit rest res seen sc dc
    else
      let u := p.url.getD ""
      let sname := sourceNameOf p
      if MAX_RESULTS_PER_SOURCE ≤ cntGet sc sname then
        searchLoop whitelist isoDays now structured limit rest res seen sc dc
      else
        let domain := domainOf u
        let scored := score_hit whitelist isoDays now h.score p structured
          (cntGet sc sname) (cntGet dc domain)
        let res' := res ++ [mkRanked p u sname scored]
        if limit ≤ res'.length then res'
        else searchLoop whitelist isoDays now structured limit rest res'
          (u :: seen) (cntInc sc sname) (cntInc dc domain)

/-- Stable descending insertion by score (`list.sort(key=score,
reverse=True)` is stable; earlier items stay first on ties). -/
def insDesc (x : RankedResult) : List RankedResult → List RankedResult
  | [] => [x]
  | y :: ys => if y.score ≤ x.score then x :: y :: ys else y :: insDesc x ys

def sortDesc : List RankedResult → List RankedResult
  | [] => []
  | x :: xs => insDesc x (sortDesc xs)

/-- `SearchService.search` after the vector store returned `hits` (the
store call, the empty-hits early return and the history write are I/O). -/
def searchRank (whitelist : List String) (isoDays : String → Option Int)
    (now : Int) (structured : StructuredQuery) (hits : List Hit)
    (limit : Nat) : List RankedResult :=
  sortDesc (searchLoop whitelist isoDays now structured limit hits [] [] [] [])

/-! ## Skip statistics (`SkipStats` in `ingest_quality.py`) -/

structure SkipStats where
  total : Nat := 0
  kept : Nat := 0
  skipped : Nat := 0
  by_reason : List (String × Nat) := []
deriving DecidableEq, Repr

/-- `SkipStats.add(skip=…, reason=…)`. -/
def SkipStats.add (s : SkipStats) (skip : Bool) (reason : String) : SkipStats :=
  let s := { s with total := s.total + 1 }
  if skip then
    { s with skipped := s.skipped + 1, by_reason := cntInc s.by_reason reason }
  else { s with kept := s.kept + 1 }

/-- A freshly constructed counter after a sequence of `add` calls. -/
def SkipStats.ofCalls (calls : List (Bool × String)) : SkipStats :=
  calls.foldl (fun s c => s.add c.1 c.2) {}

/-- Sum of the per-reason counts. -/
def sumCounts (m : List (String × Nat)) : Nat :=
  (m.map Prod.snd).sum

/-! ## Spec-side definitions used to state the claims -/

/-- The reason codes `should_skip_doc` can actually produce (the
`exception` code is reserved for the catch-all handler, which is
unreachable in this total embedding). -/
def gateReasons : List String :=
  ["empty_text", "blacklist_word", "text_too_short", "price_too_low",
   "price_too_high", "year_too_old", "mileage_too_high",
   "not_sale_and_no_signals", "weak_sale_but_has_signals", "ok"]

/-- The reason set claimed by the spec for the gate. -/
def specGateReasons : List String :=
  ["empty_text", "not_sale_intent", "ok", "exception"]

/-- The sale-intent score as the spec states it: +2 per positive phrase
contained in the lowered text, +1 for a price signal, −2 per negative
phrase. -/
def saleScoreSpec (t : List Char) : Int :=
  let low := t.map pyLowerChar
  2 * (((POSITIVE_WORDS_RU ++ POSITIVE_WORDS_EN).filter
        (fun w => isSubB w.data low)).length : Int)
    + (if pricePatternSearch low then 1 else 0)
    - 2 * (((NEGATIVE_WORDS_RU ++ NEGATIVE_WORDS_EN).filter
        (fun w => isSubB w.data low)).length : Int)

/-- Modelled from the spec: `brands.yaml` is not part of the sources
(only its loaders are), so a small sample catalog in the documented shape
(`en` / `ru` / `aliases` token lists per canonical brand key) stands in
for it in concrete instances. -/
def sampleBrands : Catalog :=
  [("bmw", { en := ["bmw"], ru := ["бмв"], aliases := ["bmv", "бнв"] }),
   ("mercedes", { en := ["mercedes"], ru := ["мерседес"], aliases := ["мерс"] })]

/-- Append each element not already present (keep-first deduplication);
the closed form of the keyword accumulation loop. -/
def dedupInto (acc : List String) : List String → List String
  | [] => acc
  | t :: rest => if t ∈ acc then dedupInto acc rest
                 else dedupInto (acc ++ [t]) rest

/-- Tokens the keyword pass keeps: not negation-marked, not stop tokens. -/
def keywordEligible (t : List Char) : Bool :=
  !(isPrefB ("не".data) t && decide (2 < t.length)) &&
  !((String.mk t) ∈ STOP_TOKENS)

/-- Exclusions as the code produces them: negation-marked tokens with one
leading character dropped. -/
def exclusionsSpec (toks : List (List Char)) : List String :=
  toks.filterMap (fun t =>
    if isPrefB ("не".data) t && decide (2 < t.length) then
      some (String.mk (t.drop 1))
    else none)

/-- Results from a named source in the ranked output. -/
def countSource (res : List RankedResult) (s : String) : Nat :=
  (res.filter (fun r => r.source_name = s)).length

/-! ## Helper lemmas -/

theorem sumCounts_cntInc (m : List (String × Nat)) (k : String) :
    sumCounts (cntInc m k) = sumCounts m + 1 := by
  induction m with
  | nil => simp [cntInc, sumCounts]
  | cons a rest ih =>
    obtain ⟨x, n⟩ := a
    by_cases h : x = k <;> simp [cntInc, h, sumCounts] <;>
      simp [sumCounts] at ih <;> omega

theorem skipStats_aux (calls : List (Bool × String)) :
    ∀ s : SkipStats, s.total = s.kept + s.skipped →
      s.skipped = sumCounts s.by_reason →
      (calls.foldl (fun s c => s.add c.1 c.2) s).total
          = (calls.foldl (fun s c => s.add c.1 c.2) s).kept
            + (calls.foldl (fun s c => s.add c.1 c.2) s).skipped ∧
        (calls.foldl (fun s c => s.add c.1 c.2) s).skipped
          = sumCounts (calls.foldl (fun s c => s.add c.1 c.2) s).by_reason := by
  induction calls with
  | nil => exact fun s h1 h2 => ⟨h1, h2⟩
  | cons c rest ih =>
    intro s h1 h2
    simp only [List.foldl_cons]
    apply ih
    · cases hc : c.1 <;> simp [SkipStats.add, hc] <;> omega
    · cases hc : c.1 <;> simp [SkipStats.add, hc, sumCounts_cntInc] <;> omega

theorem foldl_add_two (l : List String) (low : List Char) (init : Int) :
    l.foldl (fun a w => if isSubB w.data low then a + 2 else a) init
      = init + 2 * ((l.filter (fun w => isSubB w.data low)).length : Int) := by
  induction l generalizing init with
  | nil => simp
  | cons w rest ih =>
    by_cases h : isSubB w.data low <;> simp [h, ih] <;> push_cast <;> ring

theorem foldl_sub_two (l : List String) (low : List Char) (init : Int) :
    l.foldl (fun a w => if isSubB w.data low then a - 2 else a) init
      = init - 2 * ((l.filter (fun w => isSubB w.data low)).length : Int) := by
  induction l generalizing init with
  | nil => simp
  | cons w rest ih =>
    by_cases h : isSubB w.data low <;> simp [h, ih] <;> push_cast <;> ring

/-! ## Claim theorems -/

/-- C10: after any sequence of `add(skip, reason)` calls on a fresh
`SkipStats`, `total = kept + skipped` and `skipped` equals the sum of the
per-reason counts. -/
theorem skipStats_invariant (calls : List (Bool × String)) :
    (SkipStats.ofCalls calls).total
        = (SkipStats.ofCalls calls).kept + (SkipStats.ofCalls calls).skipped ∧
      (SkipStats.ofCalls calls).skipped
        = sumCounts (SkipStats.ofCalls calls).by_reason :=
  skipStats_aux calls {} rfl rfl

/-- C9: for any text and any threshold ≥ 1, `is_sale_intent` holds exactly
when the spec's sale-intent score (+2 per positive phrase, +1 for a price
signal, −2 per negative phrase) reaches the threshold; the configurable
threshold defaults to 2. -/
theorem saleScoreSpec_nil : saleScoreSpec [] = 0 := by decide

theorem saleIntent_score_threshold (text : String) (m : Int) (hm : 1 ≤ m) :
    is_sale_intent text m = decide (m ≤ saleScoreSpec text.data) ∧
      DEFAULT_MIN_SALE_SCORE = 2 := by
  refine ⟨?_, rfl⟩
  unfold is_sale_intent is_sale_intentL
  by_cases ht : text.data = []
  · rw [ht, saleScoreSpec_nil]
    have hnm : ¬ (m ≤ 0) := by omega
    simp [hnm]
  · rw [if_neg ht]
    dsimp only
    rw [foldl_sub_two, foldl_add_two]
    have hEq :
        (if pricePatternSearch (text.data.map pyLowerChar) then
            (0 : Int) + 2 * (((POSITIVE_WORDS_RU ++ POSITIVE_WORDS_EN).filter
              (fun w => isSubB w.data (text.data.map pyLowerChar))).length : Int) + 1
          else (0 : Int) + 2 * (((POSITIVE_WORDS_RU ++ POSITIVE_WORDS_EN).filter
              (fun w => isSubB w.data (text.data.map pyLowerChar))).length : Int))
          - 2 * (((NEGATIVE_WORDS_RU ++ NEGATIVE_WORDS_EN).filter
              (fun w => isSubB w.data (text.data.map pyLowerChar))).length : Int)
          = saleScoreSpec text.data := by
      unfold saleScoreSpec
      split_ifs with h <;> simp [h] <;> ring
    rw [hEq]

/-- C9 witness: the threshold hypothesis holds at the default threshold 2. -/
theorem saleIntent_score_threshold_witness :
    ((1 : Int) ≤ 2) ∧ (is_sale_intent "продам bmw" 2
        = decide ((2 : Int) ≤ saleScoreSpec "продам bmw".data) ∧
      DEFAULT_MIN_SALE_SCORE = 2) :=
  ⟨by decide, saleIntent_score_threshold "продам bmw" 2 (by decide)⟩

theorem fallback_raw_query (cat : Catalog) (raw : String) :
    (parse_with_fallback cat raw).raw_query = some raw := by
  unfold parse_with_fallback
  dsimp only
  cases (extract_brandL cat (raw.data.map pyLowerChar)).1 <;> dsimp only <;>
    split_ifs <;> rfl

/-- C4 counterexample: `parse_query` strips the input, so `raw_query` is
not the input verbatim. -/
theorem parse_query_raw_verbatim_cex :
    (parse_query [] " bmw").raw_query = some "bmw" ∧
      (parse_query [] " bmw").raw_query ≠ some " bmw" := by decide

/-- C4 (amended): `parse_query` is total, always returns a
`StructuredQuery` whose `raw_query` is the whitespace-stripped input, and
degrades to an all-null query (with the stripped raw text) on empty
input. -/
theorem parse_query_raw_stripped (cat : Catalog) (raw : String) :
    (parse_query cat raw).raw_query = some (String.mk (pyStrip raw.data)) ∧
      parse_query cat "" = { raw_query := some "" } := by
  constructor
  · unfold parse_query
    dsimp only
    by_cases h : String.mk (pyStrip raw.data) = ""
    · rw [if_pos h]
    · rw [if_neg h]
      exact fallback_raw_query cat _
  · rfl

theorem kwExLoop_ex (toks : List (List Char)) :
    ∀ kw ex, (kwExLoop toks kw ex).2 = ex ++ exclusionsSpec toks := by
  induction toks with
  | nil => intro kw ex; simp [kwExLoop, exclusionsSpec]
  | cons t rest ih =>
    intro kw ex
    by_cases hneg : (isPrefB ("не".data) t && decide (2 < t.length)) = true
    · have hconj := hneg
      simp only [Bool.and_eq_true, decide_eq_true_eq] at hconj
      rw [kwExLoop, if_pos hneg, ih]
      simp [exclusionsSpec, hconj.1, hconj.2, List.append_assoc]
    · rw [kwExLoop, if_neg hneg]
      have hspec : exclusionsSpec (t :: rest) = exclusionsSpec rest := by
        simp only [exclusionsSpec, List.filterMap_cons]
        rw [if_neg]
        intro hc
        exact hneg (by simpa using hc)
      split_ifs <;> rw [ih, hspec]

theorem kwExLoop_kw (toks : List (List Char)) :
    ∀ kw ex, (kwExLoop toks kw ex).1
      = dedupInto kw ((toks.filter keywordEligible).map String.mk) := by
  induction toks with
  | nil => intro kw ex; simp [kwExLoop, dedupInto]
  | cons t rest ih =>
    intro kw ex
    by_cases hneg : (isPrefB ("не".data) t && decide (2 < t.length)) = true
    · have helig : keywordEligible t = false := by
        simp only [keywordEligible, hneg]
        simp
      rw [kwExLoop, if_pos hneg, ih, List.filter_cons, helig]
      simp
    · rw [kwExLoop, if_neg hneg]
      by_cases hstop : (String.mk t) ∈ STOP_TOKENS
      · have helig : keywordEligible t = false := by
          simp [keywordEligible, hstop]
        rw [if_neg (by tauto), ih, List.filter_cons, helig]
        simp
      · have helig : keywordEligible t = true := by
          simp [keywordEligible, hneg, hstop]
        rw [List.filter_cons, helig]
        simp only [if_true]
        by_cases hkw : (String.mk t) ∈ kw
        · rw [if_neg (by tauto), ih]
          simp only [List.map_cons, dedupInto, if_pos hkw]
        · rw [if_pos ⟨hstop, hkw⟩, ih]
          simp only [List.map_cons, dedupInto, if_neg hkw]

/-- C6 counterexample: the token `небит` yields the exclusion `ебит` (only
the first character of the `не` marker is dropped), not `бит`. -/
theorem exclusion_strip_cex :
    (parse_with_fallback [] "небит").exclusions = ["ебит"] ∧
      ("ебит" : String) ≠ "бит" := by decide

/-- C6 (amended): negation-marked alphanumeric tokens (longer than the
marker) become exclusions with only the first character dropped (`t[1:]`,
not the whole `не` marker); the remaining tokens outside the stop-token
set become keywords, deduplicated keep-first after the seeded recency
keyword. -/
theorem kw_exclusion_pass (cat : Catalog) (raw : String) :
    (parse_with_fallback cat raw).exclusions
        = exclusionsSpec (tokenize (raw.data.map pyLowerChar)) ∧
      (parse_with_fallback cat raw).keywords
        = dedupInto (recencyInit (raw.data.map pyLowerChar))
            (((tokenize (raw.data.map pyLowerChar)).filter keywordEligible).map
              String.mk) := by
  unfold parse_with_fallback
  dsimp only
  rw [kwExLoop_ex, kwExLoop_kw]
  simp

theorem detect_brandL_conf (cat : Catalog) (low : List Char) :
    (detect_brandL cat low).2 ∈ ({0, 7/10, 1} : Set ℚ) := by
  induction cat with
  | nil => simp [detect_brandL]
  | cons b rest ih =>
    obtain ⟨k, cfg⟩ := b
    unfold detect_brandL
    split_ifs <;> simp_all

theorem extract_brandL_conf (cat : Catalog) (low : List Char) :
    (extract_brandL cat low).2 ∈ ({0, 3/5, 4/5, 1} : Set ℚ) := by
  induction cat with
  | nil => simp [extract_brandL]
  | cons b rest ih =>
    obtain ⟨k, cfg⟩ := b
    unfold extract_brandL
    split_ifs <;> simp_all

/-- C5 counterexample: at the ingest call site an alias hit is reported
with confidence 0.7, not the claimed 0.8 (and ingest-time exact matches
are plain containment, demonstrated by the other theorems). -/
theorem detect_brand_alias_cex :
    detect_brand sampleBrands "bmv продажа" = (some "bmw", 7/10) ∧
      (detect_brand sampleBrands "bmv продажа").2 ≠ 8/10 := by
  constructor
  · rfl
  · show (7 : ℚ)/10 ≠ 8/10
    norm_num

/-- C5 (amended): the 1.0 / 0.8 / 0.6 contract (word-bounded exact, alias,
substring-of-exact) holds at the query-time `_extract_brand` call site,
first matching brand in catalog order winning; the ingest-time
`detect_brand` instead uses plain containment with tiers 1.0 (exact) and
0.7 (alias) and has no substring tier, so its confidences lie in
{0, 0.7, 1} while query-time confidences lie in {0, 0.6, 0.8, 1}. -/
theorem brand_conf_contract :
    (∀ (cat : Catalog) (text : String),
        (detect_brand cat text).2 ∈ ({0, 7/10, 1} : Set ℚ)) ∧
      (∀ (cat : Catalog) (low : List Char),
        (extract_brandL cat low).2 ∈ ({0, 3/5, 4/5, 1} : Set ℚ)) ∧
      detect_brand sampleBrands "бмв 2019" = (some "bmw", 1) ∧
      extract_brandL sampleBrands ("бмв 2019".data) = (some "bmw", 1) ∧
      extract_brandL sampleBrands ("bmv продажа".data) = (some "bmw", 4/5) ∧
      extract_brandL sampleBrands ("бмвшка".data) = (some "bmw", 3/5) := by
  refine ⟨?_, fun cat low => extract_brandL_conf cat low, ?_, ?_, ?_, ?_⟩
  · intro cat text
    unfold detect_brand
    split_ifs
    · simp
    · exact detect_brandL_conf cat _
  all_goals rfl

theorem passes_min_max_reason_mem (t : List Char) (a b c d e : Nat) :
    (passes_min_max_rules t a b c d e).2 ∈
      (["text_too_short", "price_too_low", "price_too_high", "year_too_old",
        "mileage_too_high", "ok"] : List String) := by
  unfold passes_min_max_rules
  by_cases h0 : t = [] ∨ (pyStrip t).length < a
  · simp [h0]
  · rw [if_neg h0]
    dsimp only
    rcases hp : (extract_quality_signals t).price_rub with _ | p <;>
      rcases hy : (extract_quality_signals t).year with _ | y <;>
      rcases hm : (extract_quality_signals t).mileage_km with _ | mkm <;>
      simp only [hp, hy, hm] <;> first
      | (split_ifs <;> simp)
      | simp

/-- C1 counterexample: a blacklisted text produces the reason code
`blacklist_word`, which is outside the claimed closed set
{empty_text, not_sale_intent, ok, exception}. -/
theorem gate_reason_set_cex :
    reasonOf (should_skip_docD "ищу bmw" "форум")
        = some (MetaVal.s "blacklist_word") ∧
      "blacklist_word" ∉ specGateReasons := by
  constructor <;> decide

/-- C1 (amended): `should_skip_doc` is total (the embedding needs no
exception fallback) and always returns a reason code from the closed set
{empty_text, blacklist_word, text_too_short, price_too_low,
price_too_high, year_too_old, mileage_too_high, not_sale_and_no_signals,
weak_sale_but_has_signals, ok}; `exception` is reserved for the
catch-all handler. -/
theorem gate_reason_closed (text source : String) (m : Int)
    (bl : Option (List String)) :
    ∃ r, reasonOf (should_skip_doc text source m bl) = some (MetaVal.s r) ∧
      r ∈ gateReasons := by
  unfold should_skip_doc reasonOf
  by_cases h0 : text.data = []
  · refine ⟨"empty_text", ?_, by decide⟩
    rw [if_pos h0]
    rfl
  · rw [if_neg h0]
    dsimp only
    by_cases hbl : has_blacklist_words (normalizeRules text.data) bl = true
    · refine ⟨"blacklist_word", ?_, by decide⟩
      rw [if_pos hbl]
      rfl
    · rw [if_neg hbl]
      by_cases hmm : (!(passes_min_max_rules (normalizeRules text.data)
          DEFAULT_MIN_TEXT_LEN DEFAULT_MIN_PRICE_RUB DEFAULT_MAX_PRICE_RUB
          DEFAULT_MIN_YEAR DEFAULT_MAX_MILEAGE_KM).1) = true
      · rw [if_pos hmm]
        refine ⟨(passes_min_max_rules (normalizeRules text.data)
          DEFAULT_MIN_TEXT_LEN DEFAULT_MIN_PRICE_RUB DEFAULT_MAX_PRICE_RUB
          DEFAULT_MIN_YEAR DEFAULT_MAX_MILEAGE_KM).2, rfl, ?_⟩
        have hmem := passes_min_max_reason_mem (normalizeRules text.data)
          DEFAULT_MIN_TEXT_LEN DEFAULT_MIN_PRICE_RUB DEFAULT_MAX_PRICE_RUB
          DEFAULT_MIN_YEAR DEFAULT_MAX_MILEAGE_KM
        simp only [List.mem_cons, List.not_mem_nil, or_false] at hmem
        rcases hmem with h | h | h | h | h | h <;> rw [h] <;> decide
      · rw [if_neg hmm]
        by_cases hs : (!is_sale_intentL (normalizeRules text.data) m) = true
        · rw [if_pos hs]
          by_cases hq : (!has_any_required_signals (normalizeRules text.data)) = true
          · refine ⟨"not_sale_and_no_signals", ?_, by decide⟩
            rw [if_pos hq]
            rfl
          · refine ⟨"weak_sale_but_has_signals", ?_, by decide⟩
            rw [if_neg hq]
            rfl
        · refine ⟨"ok", ?_, by decide⟩
          rw [if_neg hs]
          rfl

/-- C3 counterexample: a kept (skip=false) decision whose meta carries no
`quality_score` entry at all. -/
theorem quality_score_missing_cex :
    (should_skip_docD
        "продам bmw x5 2019 года цена 3 800 000 руб состояние отличное один владелец сервисная книжка"
        "forum").1 = false ∧
      (should_skip_docD
        "продам bmw x5 2019 года цена 3 800 000 руб состояние отличное один владелец сервисная книжка"
        "forum").2.lookup "quality_score" = none := by
  constructor <;> decide

/-- C3 (amended): no gate decision (kept or skipped) carries a
`quality_score` field — the weighted price/year/mileage quality score of
the spec is not computed; the meta keys are at most
{reason, source, text_len, sale_intent}. -/
theorem gate_no_quality_score (text source : String) (m : Int)
    (bl : Option (List String)) :
    (should_skip_doc text source m bl).2.lookup "quality_score" = none ∧
      ((should_skip_doc text source m bl).2.map Prod.fst) ⊆
        ["reason", "source", "text_len", "sale_intent"] := by
  unfold should_skip_doc
  by_cases h0 : text.data = []
  · rw [if_pos h0]
    exact ⟨rfl, by decide⟩
  · rw [if_neg h0]
    dsimp only
    by_cases hbl : has_blacklist_words (normalizeRules text.data) bl = true
    · rw [if_pos hbl]
      exact ⟨rfl, by simp⟩
    · rw [if_neg hbl]
      by_cases hmm : (!(passes_min_max_rules (normalizeRules text.data)
          DEFAULT_MIN_TEXT_LEN DEFAULT_MIN_PRICE_RUB DEFAULT_MAX_PRICE_RUB
          DEFAULT_MIN_YEAR DEFAULT_MAX_MILEAGE_KM).1) = true
      · rw [if_pos hmm]
        exact ⟨rfl, by simp⟩
      · rw [if_neg hmm]
        by_cases hs : (!is_sale_intentL (normalizeRules text.data) m) = true
        · rw [if_pos hs]
          by_cases hq : (!has_any_required_signals (normalizeRules text.data)) = true
          · rw [if_pos hq]
            exact ⟨rfl, by simp⟩
          · rw [if_neg hq]
            exact ⟨rfl, by simp⟩
        · rw [if_neg hs]
          exact ⟨rfl, by simp⟩

/-- C2 counterexample: a text whose sale-intent score is below the default
threshold is nevertheless kept (skip=false), with reason
`weak_sale_but_has_signals` — not skipped with `not_sale_intent`. -/
theorem weak_sale_kept_cex :
    saleScoreSpec (normalizeRules
        ("авто в отличном состоянии 2005 года салон кожа диски литые зимняя резина все работает отлично" : String).data)
        < DEFAULT_MIN_SALE_SCORE ∧
      (should_skip_docD
        "авто в отличном состоянии 2005 года салон кожа диски литые зимняя резина все работает отлично"
        "").1 = false ∧
      reasonOf (should_skip_docD
        "авто в отличном состоянии 2005 года салон кожа диски литые зимняя резина все работает отлично"
        "") = some (MetaVal.s "weak_sale_but_has_signals") := by
  refine ⟨by decide, by decide, by decide⟩

/-- C2 (amended): when the text survives the empty/blacklist/min-max
stages but sale intent is below threshold, the gate skips with reason
`not_sale_and_no_signals` only if no price/year/mileage signal is
present; with at least one signal it keeps the text with reason
`weak_sale_but_has_signals` — sale intent is not a single hard gate. -/
theorem gate_weak_sale (text source : String) (m : Int)
    (bl : Option (List String)) (hne : text.data ≠ [])
    (hbl : has_blacklist_words (normalizeRules text.data) bl = false)
    (hmm : (passes_min_max_rules (normalizeRules text.data)
        DEFAULT_MIN_TEXT_LEN DEFAULT_MIN_PRICE_RUB DEFAULT_MAX_PRICE_RUB
        DEFAULT_MIN_YEAR DEFAULT_MAX_MILEAGE_KM).1 = true)
    (hsale : is_sale_intentL (normalizeRules text.data) m = false) :
    (has_any_required_signals (normalizeRules text.data) = false →
        should_skip_doc text source m bl
          = (true, [("source", MetaVal.s source),
              ("text_len", MetaVal.i ((normalizeRules text.data).length : Int)),
              ("sale_intent", MetaVal.b false),
              ("reason", MetaVal.s "not_sale_and_no_signals")])) ∧
      (has_any_required_signals (normalizeRules text.data) = true →
        should_skip_doc text source m bl
          = (false, [("source", MetaVal.s source),
              ("text_len", MetaVal.i ((normalizeRules text.data).length : Int)),
              ("sale_intent", MetaVal.b false),
              ("reason", MetaVal.s "weak_sale_but_has_signals")])) := by
  unfold should_skip_doc
  rw [if_neg hne]
  dsimp only
  rw [if_neg (by simp [hbl]), if_neg (by simp [hmm]), if_pos (by simp [hsale])]
  constructor
  · intro hq
    rw [if_pos (by simp [hq]), hsale]
    rfl
  · intro hq
    rw [if_neg (by simp [hq]), hsale]
    rfl

/-- C2 witness: the amended branch behaviour at a concrete weak-intent
text that carries a year signal. -/
theorem gate_weak_sale_witness :
    (is_sale_intentL (normalizeRules
        ("в хорошем состоянии 1999 года новые тормоза масло заменено эксплуатация аккуратная гараж" : String).data)
        2 = false) ∧
      (has_any_required_signals (normalizeRules
        ("в хорошем состоянии 1999 года новые тормоза масло заменено эксплуатация аккуратная гараж" : String).data)
        = true →
        should_skip_doc
          "в хорошем состоянии 1999 года новые тормоза масло заменено эксплуатация аккуратная гараж"
          "telegram" 2 none
          = (false, [("source", MetaVal.s "telegram"),
              ("text_len", MetaVal.i ((normalizeRules
                ("в хорошем состоянии 1999 года новые тормоза масло заменено эксплуатация аккуратная гараж" : String).data).length : Int)),
              ("sale_intent", MetaVal.b false),
              ("reason", MetaVal.s "weak_sale_but_has_signals")])) :=
  ⟨by decide,
   (gate_weak_sale
      "в хорошем состоянии 1999 года новые тормоза масло заменено эксплуатация аккуратная гараж"
      "telegram" 2 none (by decide) (by decide) (by decide) (by decide)).2⟩

theorem sourceBoostOf_pos (s : String) : 0 < sourceBoostOf s := by
  unfold sourceBoostOf
  split_ifs <;> norm_num

theorem mul5_mono {S1 S2 a b c d e : ℚ} (hS : S1 ≤ S2) (ha : 0 ≤ a)
    (hb : 0 ≤ b) (hc : 0 ≤ c) (hd : 0 ≤ d) (he : 0 ≤ e) :
    S1 * a * b * c * d * e ≤ S2 * a * b * c * d * e := by
  apply mul_le_mul_of_nonneg_right _ he
  apply mul_le_mul_of_nonneg_right _ hd
  apply mul_le_mul_of_nonneg_right _ hc
  apply mul_le_mul_of_nonneg_right _ hb
  exact mul_le_mul_of_nonneg_right hS ha

theorem scoreBrandBoost_nonneg (wl : List String) (p : Payload) :
    0 ≤ scoreBrandBoost wl p := by
  unfold scoreBrandBoost
  split_ifs <;> norm_num

theorem scoreSaleBoost_nonneg (p : Payload) : 0 ≤ scoreSaleBoost p := by
  unfold scoreSaleBoost
  split_ifs <;> norm_num

theorem scoreDiversityPenalty_nonneg (sr : Nat) :
    0 ≤ scoreDiversityPenalty sr := by
  unfold scoreDiversityPenalty
  positivity

theorem scoreDomainPenalty_nonneg (dr : Nat) : 0 ≤ scoreDomainPenalty dr := by
  unfold scoreDomainPenalty DOMAIN_PENALTY_K
  positivity

theorem scoreRecency_ts (isoDays : String → Option Int) (now : Int)
    (p : Payload) (ts : Int) :
    (scoreRecency isoDays now { p with created_at_ts := some ts }).1
      = max 0 (1 - max 0 (((now : ℚ) - (ts : ℚ)) / 86400) / RECENCY_MAX_DAYS)
        * RECENCY_WEIGHT := rfl

/-- C8: two candidates identical in every payload field, similarity and
rank positions, differing only in `created_at_ts`: the more recent
timestamp never yields a lower `_score_hit` score. -/
theorem score_recency_monotone (wl : List String)
    (isoDays : String → Option Int) (now : Int) (v : ℚ) (p : Payload)
    (structured : StructuredQuery) (sr dr : Nat) (ts1 ts2 : Int)
    (h : ts1 ≤ ts2) :
    (score_hit wl isoDays now v { p with created_at_ts := some ts1 }
        structured sr dr).1
      ≤ (score_hit wl isoDays now v { p with created_at_ts := some ts2 }
        structured sr dr).1 := by
  unfold score_hit
  dsimp only
  apply mul5_mono
  · apply add_le_add_left
    rw [scoreRecency_ts, scoreRecency_ts]
    have hq : (ts1 : ℚ) ≤ (ts2 : ℚ) := by exact_mod_cast h
    have h1 : ((now : ℚ) - (ts2 : ℚ)) / 86400
        ≤ ((now : ℚ) - (ts1 : ℚ)) / 86400 := by
      apply div_le_div_of_nonneg_right ?_ (by norm_num)
      linarith
    have h2 : max 0 (((now : ℚ) - (ts2 : ℚ)) / 86400) / RECENCY_MAX_DAYS
        ≤ max 0 (((now : ℚ) - (ts1 : ℚ)) / 86400) / RECENCY_MAX_DAYS := by
      apply div_le_div_of_nonneg_right (max_le_max le_rfl h1)
      norm_num [RECENCY_MAX_DAYS]
    have h3 := max_le_max (le_refl (0 : ℚ)) (sub_le_sub_left h2 1)
    exact mul_le_mul_of_nonneg_right h3 (by norm_num [RECENCY_WEIGHT])
  · exact (sourceBoostOf_pos _).le
  · exact scoreBrandBoost_nonneg wl _
  · exact scoreSaleBoost_nonneg _
  · exact scoreDiversityPenalty_nonneg sr
  · exact scoreDomainPenalty_nonneg dr

/-- C8 witness: concrete timestamps with the hypothesis discharged. -/
theorem score_recency_monotone_witness :
    (100 : Int) ≤ 200 ∧
      (score_hit [] (fun _ => none) 86400 1
          { ({} : Payload) with created_at_ts := some 100 } {} 0 0).1
        ≤ (score_hit [] (fun _ => none) 86400 1
          { ({} : Payload) with created_at_ts := some 200 } {} 0 0).1 :=
  ⟨by decide,
   score_recency_monotone [] (fun _ => none) 86400 1 {} {} 0 0 100 200
     (by decide)⟩

theorem countSource_append_one (res : List RankedResult) (r : RankedResult)
    (s : String) :
    countSource (res ++ [r]) s
      = countSource res s + (if r.source_name = s then 1 else 0) := by
  unfold countSource
  rw [List.filter_append]
  by_cases h : r.source_name = s <;> simp [h]

theorem countSource_eq_countP (res : List RankedResult) (s : String) :
    countSource res s = res.countP (fun r => decide (r.source_name = s)) := by
  simp [countSource, List.countP_eq_length_filter]

theorem countP_insDesc (x : RankedResult) (l : List RankedResult)
    (p : RankedResult → Bool) :
    (insDesc x l).countP p = l.countP p + (if p x then 1 else 0) := by
  induction l with
  | nil => simp [insDesc, List.countP_cons]
  | cons y ys ih =>
    unfold insDesc
    by_cases hsc : y.score ≤ x.score
    · rw [if_pos hsc]
      all_goals simp only [List.countP_cons]
      all_goals omega
    · rw [if_neg hsc]
      all_goals simp only [List.countP_cons, ih]
      all_goals omega

theorem countSource_sortDesc (l : List RankedResult) (s : String) :
    countSource (sortDesc l) s = countSource l s := by
  simp only [countSource_eq_countP]
  induction l with
  | nil => rfl
  | cons x xs ih =>
    unfold sortDesc
    rw [countP_insDesc, ih, List.countP_cons]

theorem cntGet_cntInc_self (m : List (String × Nat)) (k : String) :
    cntGet (cntInc m k) k = cntGet m k + 1 := by
  induction m with
  | nil => simp [cntInc, cntGet, List.lookup]
  | cons a rest ih =>
    obtain ⟨x, n⟩ := a
    by_cases h : x = k
    · subst h
      simp [cntInc, cntGet, List.lookup]
    · have hbeq : (k == x) = false := by
        simp [BEq.beq]
        exact fun he => h he.symm
      simp [cntInc, h, cntGet, List.lookup, hbeq] at ih ⊢
      exact ih

theorem cntGet_cntInc_ne (m : List (String × Nat)) (k t : String)
    (h : t ≠ k) : cntGet (cntInc m k) t = cntGet m t := by
  induction m with
  | nil =>
    have hbeq : (t == k) = false := by
      simp [BEq.beq]
      exact h
    simp [cntInc, cntGet, List.lookup, hbeq]
  | cons a rest ih =>
    obtain ⟨x, n⟩ := a
    by_cases hx : x = k
    · subst hx
      have hbeq : (t == x) = false := by
        simp [BEq.beq]
        exact h
      simp [cntInc, cntGet, List.lookup, hbeq]
    · by_cases htx : t = x
      · subst htx
        simp [cntInc, hx, cntGet, List.lookup]
      · have hbeq : (t == x) = false := by
          simp [BEq.beq]
          exact htx
        simp [cntInc, hx, cntGet, List.lookup, hbeq] at ih ⊢
        exact ih

theorem searchLoop_count (wl : List String) (isoD : String → Option Int)
    (now : Int) (structured : StructuredQuery) (limit : Nat)
    (hits : List Hit) :
    ∀ (res : List RankedResult) (seen : List String)
      (sc dc : List (String × Nat)),
      (∀ t, countSource res t ≤ cntGet sc t) →
      (∀ t, cntGet sc t ≤ MAX_RESULTS_PER_SOURCE) →
      ∀ s, countSource (searchLoop wl isoD now structured limit hits res seen sc dc) s
        ≤ MAX_RESULTS_PER_SOURCE := by
  induction hits with
  | nil =>
    intro res seen sc dc h1 h2 s
    exact (h1 s).trans (h2 s)
  | cons h rest ih =>
    intro res seen sc dc h1 h2 s
    rw [searchLoop]
    dsimp only
    by_cases hskip : urlSkip h.payload.url seen = true
    · rw [if_pos hskip]
      exact ih res seen sc dc h1 h2 s
    · rw [if_neg hskip]
      by_cases hcap : MAX_RESULTS_PER_SOURCE
          ≤ cntGet sc (sourceNameOf h.payload)
      · rw [if_pos hcap]
        exact ih res seen sc dc h1 h2 s
      · rw [if_neg hcap]
        have hco : ∀ t, countSource (res ++
            [mkRanked h.payload (h.payload.url.getD "")
              (sourceNameOf h.payload)
              (score_hit wl isoD now h.score h.payload structured
                (cntGet sc (sourceNameOf h.payload))
                (cntGet dc (domainOf (h.payload.url.getD ""))))]) t
            = countSource res t
              + (if sourceNameOf h.payload = t then 1 else 0) := by
          intro t
          rw [countSource_append_one]
          rfl
        by_cases hlim : limit ≤ (res ++
            [mkRanked h.payload (h.payload.url.getD "")
              (sourceNameOf h.payload)
              (score_hit wl isoD now h.score h.payload structured
                (cntGet sc (sourceNameOf h.payload))
                (cntGet dc (domainOf (h.payload.url.getD ""))))]).length
        · rw [if_pos hlim, hco s]
          by_cases hsn : sourceNameOf h.payload = s
          · rw [if_pos hsn]
            have hr := h1 s
            rw [hsn] at hcap
            omega
          · rw [if_neg hsn]
            have := (h1 s).trans (h2 s)
            omega
        · rw [if_neg hlim]
          apply ih
          · intro t
            rw [hco t]
            by_cases hsn : sourceNameOf h.payload = t
            · rw [if_pos hsn, ← hsn, cntGet_cntInc_self, hsn]
              have hr := h1 t
              omega
            · rw [if_neg hsn,
                cntGet_cntInc_ne sc (sourceNameOf h.payload) t
                  (fun he => hsn he.symm)]
              have hr := h1 t
              omega
          · intro t
            by_cases hsn : sourceNameOf h.payload = t
            · rw [← hsn, cntGet_cntInc_self]
              omega
            · rw [cntGet_cntInc_ne sc (sourceNameOf h.payload) t
                  (fun he => hsn he.symm)]
              exact h2 t

/-- C7: the ranked output never contains more than
`MAX_RESULTS_PER_SOURCE` (= 3) results from any single named source, for
every whitelist, clock, structured query, candidate list and limit. -/
theorem per_source_cap (wl : List String) (isoD : String → Option Int)
    (now : Int) (structured : StructuredQuery) (hits : List Hit)
    (limit : Nat) (s : String) :
    countSource (searchRank wl isoD now structured hits limit) s
      ≤ MAX_RESULTS_PER_SOURCE := by
  unfold searchRank
  rw [countSource_sortDesc]
  exact searchLoop_count wl isoD now structured limit hits [] [] [] []
    (fun t => by simp [countSource, cntGet, List.lookup])
    (fun t => by simp [cntGet, List.lookup, MAX_RESULTS_PER_SOURCE]) s

end AutoSearch
